import Mathlib

/-!
# Verification of the bun2nix Fetcher core

A shallow embedding of `src/programs/bun2nix/src/package/fetcher.rs`.
Strings are modelled as `List Char`; Rust `Option<&str>` becomes
`Option (List Char)`; the fallible functions return `Except Error _`.
Rust `str::split_once` with a single-character pattern is modelled by
`splitOnce`, and `str::ends_with` by `endsWith`.
-/

namespace Bun2nix

/-- The error type of the crate, restricted to the one variant the
fetcher module can produce. -/
inductive Error where
  | NoAtInPackageIdentifier
deriving DecidableEq

/-- The `Fetcher` enum: a nix-translated fetcher for a given package. -/
inductive Fetcher where
  | FetchUrl (url hash : List Char)
  | FetchGit (url rev hash : List Char)
  | FetchGitHub (owner repo rev hash : List Char)
  | FetchTarball (url hash : List Char)
  | CopyToStore (path : List Char)
deriving DecidableEq

/-- Decidable equality for `Except`, so closed facts about the fetcher
functions can be settled by `decide`. -/
instance instDecEqExcept {e a : Type} [DecidableEq e] [DecidableEq a] :
    DecidableEq (Except e a) := fun x y =>
  match x, y with
  | Except.ok u, Except.ok v =>
    if h : u = v then Decidable.isTrue (by rw [h])
    else Decidable.isFalse (fun hc => h (Except.ok.inj hc))
  | Except.ok _, Except.error _ => Decidable.isFalse (fun hc => Except.noConfusion hc)
  | Except.error _, Except.ok _ => Decidable.isFalse (fun hc => Except.noConfusion hc)
  | Except.error u, Except.error v =>
    if h : u = v then Decidable.isTrue (by rw [h])
    else Decidable.isFalse (fun hc => h (Except.error.inj hc))

/-- `DEFAULT_REGISTRY`: the default NPM registry URL. -/
def DEFAULT_REGISTRY : List Char := "https://registry.npmjs.org/".data

/-- Rust `s.split_once(p)` for a single-character pattern `p`: split at the
first occurrence of `c`, returning the parts before and after it, or `none`
when `c` does not occur. -/
def splitOnce (c : Char) : List Char → Option (List Char × List Char)
  | [] => none
  | x :: xs =>
    if x = c then some ([], xs)
    else (splitOnce c xs).map (fun p => (x :: p.1, p.2))

/-- Rust `s.ends_with(t)`. -/
def endsWith (t s : List Char) : Bool := t.isSuffixOf s

/-- The base-registry computation inside `to_npm_url`: the override
(with a `/` appended when missing) if present and non-empty, else
`DEFAULT_REGISTRY`. -/
def baseUrl (registry_path : Option (List Char)) : List Char :=
  match registry_path with
  | some url =>
    if !url.isEmpty then
      if endsWith "/".data url then url else url ++ "/".data
    else DEFAULT_REGISTRY
  | none => DEFAULT_REGISTRY

/-- The identifier-parsing tail of `to_npm_url`: split on the first `/`
(scoped vs unscoped), then on the first `@` (name vs version), and build
the tarball URL, mirroring the two `format!` calls of the source. -/
def npm_url_of_ident (base_url ident : List Char) : Except Error (List Char) :=
  match splitOnce '/' ident with
  | none =>
    match splitOnce '@' ident with
    | none => Except.error Error.NoAtInPackageIdentifier
    | some (name, ver) =>
      Except.ok (base_url ++ name ++ "/-/".data ++ name ++ "-".data ++ ver ++ ".tgz".data)
  | some (user, name_and_ver) =>
    match splitOnce '@' name_and_ver with
    | none => Except.error Error.NoAtInPackageIdentifier
    | some (name, ver) =>
      Except.ok (base_url ++ user ++ "/".data ++ name ++ "/-/".data ++ name ++ "-".data ++
        ver ++ ".tgz".data)

/-- `Fetcher::to_npm_url`: a non-empty `registry_path` ending in `.tgz` is
returned directly; otherwise the URL is built from the base registry and
the parsed identifier. -/
def to_npm_url (ident : List Char) (registry_path : Option (List Char)) :
    Except Error (List Char) :=
  match registry_path with
  | some path =>
    if !path.isEmpty && endsWith ".tgz".data path then Except.ok path
    else npm_url_of_ident (baseUrl (some path)) ident
  | none => npm_url_of_ident (baseUrl none) ident

/-- Whether the early-return branch of `to_npm_url` fires: the override is
present, non-empty and ends in `.tgz`. -/
def isTgzOverride : Option (List Char) → Bool
  | some path => !path.isEmpty && endsWith ".tgz".data path
  | none => false

/-- `Fetcher::new_npm_package`: derive the URL via `to_npm_url` and wrap it
with the caller-supplied hash into the `FetchUrl` variant. -/
def new_npm_package (ident hash : List Char) (registry_path : Option (List Char)) :
    Except Error Fetcher :=
  match to_npm_url ident registry_path with
  | Except.error e => Except.error e
  | Except.ok url => Except.ok (Fetcher.FetchUrl url hash)

/-- Modelled from the spec: the five `.nix_template` files referenced by the
`#[template(path = ...)]` attributes (fetchurl, fetchgit, fetchgithub,
fetchtarball, copy-to-store) are not part of the excerpt. Per the spec,
rendering maps each variant to its own fixed template and substitutes the
variant's field values into it; we model each template as a fixed text with
the fields spliced in. -/
def render : Fetcher → List Char
  | Fetcher.FetchUrl url hash =>
    "pkgs.fetchurl url = ".data ++ url ++ "; hash = ".data ++ hash ++ ";".data
  | Fetcher.FetchGit url rev hash =>
    "pkgs.fetchgit url = ".data ++ url ++ "; rev = ".data ++ rev ++
      "; hash = ".data ++ hash ++ ";".data
  | Fetcher.FetchGitHub owner repo rev hash =>
    "pkgs.fetchFromGitHub owner = ".data ++ owner ++ "; repo = ".data ++ repo ++
      "; rev = ".data ++ rev ++ "; hash = ".data ++ hash ++ ";".data
  | Fetcher.FetchTarball url hash =>
    "builtins.fetchTarball url = ".data ++ url ++ "; sha256 = ".data ++ hash ++ ";".data
  | Fetcher.CopyToStore path =>
    "copy to store ".data ++ path

/-! ## Lemmas about `splitOnce` -/

/-- `splitOnce` finds nothing when the separator does not occur. -/
theorem splitOnce_eq_none (c : Char) (l : List Char) (h : c ∉ l) :
    splitOnce c l = none := by
  induction l with
  | nil => rfl
  | cons x xs ih =>
    rw [List.mem_cons, not_or] at h
    have hx : ¬x = c := fun hx => h.1 hx.symm
    simp [splitOnce, hx, ih h.2]

/-- `splitOnce` splits at the first occurrence of the separator. -/
theorem splitOnce_append (c : Char) (a b : List Char) (h : c ∉ a) :
    splitOnce c (a ++ c :: b) = some (a, b) := by
  induction a with
  | nil => simp [splitOnce]
  | cons x xs ih =>
    rw [List.mem_cons, not_or] at h
    have hx : ¬x = c := fun hx => h.1 hx.symm
    simp [splitOnce, hx, ih h.2]

/-- A successful `splitOnce` decomposes the input around the separator. -/
theorem splitOnce_eq_some (c : Char) {l a b : List Char}
    (h : splitOnce c l = some (a, b)) : l = a ++ c :: b := by
  induction l generalizing a b with
  | nil => exact absurd h (by simp [splitOnce])
  | cons x xs ih =>
    by_cases hx : x = c
    · simp [splitOnce, hx] at h
      rw [hx, h.1, h.2]
      rfl
    · simp only [splitOnce, if_neg hx, Option.map_eq_some'] at h
      obtain ⟨⟨p, q⟩, hp, he⟩ := h
      cases he
      rw [ih hp]
      rfl

/-- When the separator occurs, `splitOnce` succeeds. -/
theorem splitOnce_isSome (c : Char) (l : List Char) (h : c ∈ l) :
    ∃ a b, splitOnce c l = some (a, b) := by
  induction l with
  | nil => exact absurd h (List.not_mem_nil c)
  | cons x xs ih =>
    by_cases hx : x = c
    · exact ⟨[], xs, by simp [splitOnce, hx]⟩
    · obtain ⟨a, b, hab⟩ := ih (by
        rcases List.mem_cons.mp h with h | h
        · exact absurd h.symm hx
        · exact h)
      exact ⟨x :: a, b, by simp [splitOnce, hx, hab]⟩

/-! ## Shape lemmas for `npm_url_of_ident` -/

/-- Unscoped identifiers: when neither part contains `/` and the name
contains no `@`, the URL is built from the name and version. -/
theorem npm_url_of_ident_unscoped (base name ver : List Char)
    (h1 : '/' ∉ name) (h2 : '@' ∉ name) (h3 : '/' ∉ ver) :
    npm_url_of_ident base (name ++ '@' :: ver) =
      Except.ok (base ++ name ++ "/-/".data ++ name ++ "-".data ++ ver ++ ".tgz".data) := by
  have hs : splitOnce '/' (name ++ '@' :: ver) = none := by
    refine splitOnce_eq_none _ _ (fun hmem => ?_)
    rcases List.mem_append.mp hmem with h | h
    · exact h1 h
    · rcases List.mem_cons.mp h with h | h
      · exact absurd h (by decide)
      · exact h3 h
  have ha := splitOnce_append '@' name ver h2
  simp [npm_url_of_ident, hs, ha]

/-- Scoped identifiers: when the part before the first `/` contains no `/`
and the name contains no `@`, the URL nests under the user segment. -/
theorem npm_url_of_ident_scoped (base user name ver : List Char)
    (hu : '/' ∉ user) (ha : '@' ∉ name) :
    npm_url_of_ident base (user ++ '/' :: (name ++ '@' :: ver)) =
      Except.ok (base ++ user ++ "/".data ++ name ++ "/-/".data ++ name ++ "-".data ++
        ver ++ ".tgz".data) := by
  have h1 := splitOnce_append '/' user (name ++ '@' :: ver) hu
  have h2 := splitOnce_append '@' name ver ha
  simp [npm_url_of_ident, h1, h2]

/-- Without an `@` anywhere in the identifier, parsing fails, whatever the
base URL is. -/
theorem npm_url_of_ident_no_at (base ident : List Char) (h : '@' ∉ ident) :
    npm_url_of_ident base ident = Except.error Error.NoAtInPackageIdentifier := by
  unfold npm_url_of_ident
  cases hsplit : splitOnce '/' ident with
  | none => rw [splitOnce_eq_none '@' ident h]
  | some p =>
    obtain ⟨user, nv⟩ := p
    have hd := splitOnce_eq_some '/' hsplit
    have hnv : '@' ∉ nv := fun hm =>
      h (hd ▸ List.mem_append_right user (List.mem_cons_of_mem '/' hm))
    simp [splitOnce_eq_none '@' nv hnv]

/-! ## The claims -/

/-- Claim C1: for every scoped identifier of the form at-scope/name-at-ver
(scope and name free of the slash, name free of the at-sign) and no registry
override, `to_npm_url` succeeds and returns exactly
`https://registry.npmjs.org/@scope/name` followed by the tarball tail
`name-VER.tgz`. -/
theorem to_npm_url_scoped_default (scope name ver : List Char)
    (hs : '/' ∉ scope) (_hn : '/' ∉ name) (ha : '@' ∉ name) :
    to_npm_url (('@' :: scope) ++ '/' :: (name ++ '@' :: ver)) none =
      Except.ok ("https://registry.npmjs.org/".data ++ ('@' :: scope) ++ "/".data ++
        name ++ "/-/".data ++ name ++ "-".data ++ ver ++ ".tgz".data) := by
  have hu : '/' ∉ '@' :: scope := by
    intro hm
    rcases List.mem_cons.mp hm with h | h
    · exact absurd h (by decide)
    · exact hs h
  have hmain := npm_url_of_ident_scoped DEFAULT_REGISTRY ('@' :: scope) name ver hu ha
  simpa [to_npm_url, baseUrl, DEFAULT_REGISTRY] using hmain

/-- Witness for C1 at scope alloc, name quick-lru, version 5.2.0. -/
theorem to_npm_url_scoped_default_witness :
    to_npm_url "@alloc/quick-lru@5.2.0".data none =
      Except.ok "https://registry.npmjs.org/@alloc/quick-lru/-/quick-lru-5.2.0.tgz".data :=
  to_npm_url_scoped_default "alloc".data "quick-lru".data "5.2.0".data
    (by decide) (by decide) (by decide)

/-- Claim C2 counterexample: for a@1/2 the name a is free of slash and
at-sign, yet `to_npm_url` fails — the slash inside the version routes the
identifier into the scoped branch — so the claimed URL is not returned. -/
theorem to_npm_url_unscoped_cex :
    to_npm_url "a@1/2".data none = Except.error Error.NoAtInPackageIdentifier ∧
    to_npm_url "a@1/2".data none ≠
      Except.ok "https://registry.npmjs.org/a/-/a-1/2.tgz".data := by
  constructor <;> decide

/-- Claim C2 (amended: the version must also be free of the slash): for
every unscoped identifier name-at-ver with name free of slash and at-sign
and ver free of slash, and no override, `to_npm_url` returns
`https://registry.npmjs.org/name` followed by the tarball tail
`name-VER.tgz`. -/
theorem to_npm_url_unscoped_default (name ver : List Char)
    (h1 : '/' ∉ name) (h2 : '@' ∉ name) (h3 : '/' ∉ ver) :
    to_npm_url (name ++ '@' :: ver) none =
      Except.ok ("https://registry.npmjs.org/".data ++ name ++ "/-/".data ++ name ++
        "-".data ++ ver ++ ".tgz".data) := by
  have hmain := npm_url_of_ident_unscoped DEFAULT_REGISTRY name ver h1 h2 h3
  simpa [to_npm_url, baseUrl, DEFAULT_REGISTRY] using hmain

/-- Witness for the amended C2 at name lodash, version 4.17.21. -/
theorem to_npm_url_unscoped_default_witness :
    to_npm_url "lodash@4.17.21".data none =
      Except.ok "https://registry.npmjs.org/lodash/-/lodash-4.17.21.tgz".data :=
  to_npm_url_unscoped_default "lodash".data "4.17.21".data
    (by decide) (by decide) (by decide)

/-- Claim C3: a non-empty registry override ending in .tgz is returned
unchanged as the result, whatever the identifier says. -/
theorem to_npm_url_tgz_override (ident p : List Char)
    (hne : p ≠ []) (htgz : endsWith ".tgz".data p = true) :
    to_npm_url ident (some p) = Except.ok p := by
  have hE : p.isEmpty = false := by
    cases p with
    | nil => exact absurd rfl hne
    | cons _ _ => rfl
  simp [to_npm_url, hE, htgz]

/-- Witness for C3 on the full-tarball override of the module docs. -/
theorem to_npm_url_tgz_override_witness :
    to_npm_url "lodash@4.17.21".data
        (some "https://npm.pkg.github.com/lodash/-/lodash-4.17.21.tgz".data) =
      Except.ok "https://npm.pkg.github.com/lodash/-/lodash-4.17.21.tgz".data :=
  to_npm_url_tgz_override "lodash@4.17.21".data
    "https://npm.pkg.github.com/lodash/-/lodash-4.17.21.tgz".data
    (by decide) (by decide)

/-- Claim C4 counterexample: the identifier noat has no at-sign, yet with
the .tgz override x.tgz `to_npm_url` succeeds and returns the override, so
the failure claimed for every registry_path does not happen here. -/
theorem to_npm_url_no_at_cex :
    to_npm_url "noat".data (some "x.tgz".data) = Except.ok "x.tgz".data ∧
    to_npm_url "noat".data (some "x.tgz".data) ≠
      Except.error Error.NoAtInPackageIdentifier := by
  constructor <;> decide

/-- Claim C4 (amended: except when registry_path is a non-empty override
ending in .tgz, which short-circuits before parsing): an identifier with no
at-sign anywhere fails with NoAtInPackageIdentifier and yields no URL. -/
theorem to_npm_url_no_at_error (ident : List Char) (rp : Option (List Char))
    (hid : '@' ∉ ident) (hrp : isTgzOverride rp = false) :
    to_npm_url ident rp = Except.error Error.NoAtInPackageIdentifier := by
  cases rp with
  | none => exact npm_url_of_ident_no_at (baseUrl none) ident hid
  | some path =>
    simp only [isTgzOverride] at hrp
    simp [to_npm_url, hrp, npm_url_of_ident_no_at (baseUrl (some path)) ident hid]

/-- Witness for the amended C4 on the docs example lodash-no-version. -/
theorem to_npm_url_no_at_error_witness :
    to_npm_url "lodash-no-version".data none =
      Except.error Error.NoAtInPackageIdentifier :=
  to_npm_url_no_at_error "lodash-no-version".data none (by decide) (by decide)

/-- Claim C5: a non-empty override not ending in .tgz is the base URL used
for construction, gaining exactly one trailing slash when it lacks one and
staying unchanged when it already ends in one. -/
theorem to_npm_url_base_normalized (ident url : List Char)
    (hne : url ≠ []) (htgz : endsWith ".tgz".data url = false) :
    to_npm_url ident (some url) =
      npm_url_of_ident (if endsWith "/".data url then url else url ++ "/".data) ident := by
  have hE : url.isEmpty = false := by
    cases url with
    | nil => exact absurd rfl hne
    | cons _ _ => rfl
  simp [to_npm_url, baseUrl, hE, htgz]

/-- Witness for C5 on the docs example base URL without a trailing slash. -/
theorem to_npm_url_base_normalized_witness :
    to_npm_url "lodash@4.17.21".data (some "https://npm.example.com".data) =
      npm_url_of_ident "https://npm.example.com/".data "lodash@4.17.21".data :=
  to_npm_url_base_normalized "lodash@4.17.21".data "https://npm.example.com".data
    (by decide) (by decide)

/-- Claim C6: `new_npm_package` returns FetchUrl of exactly the
`to_npm_url` result and the caller-supplied hash, propagates the
`to_npm_url` error unchanged, builds no other variant, and on pkg@1.0.0
with hash sha256-abc and no override yields the default-registry URL. -/
theorem new_npm_package_wraps_url :
    (∀ ident hash rp, new_npm_package ident hash rp =
      (to_npm_url ident rp).map (fun url => Fetcher.FetchUrl url hash)) ∧
    new_npm_package "pkg@1.0.0".data "sha256-abc".data none =
      Except.ok (Fetcher.FetchUrl
        "https://registry.npmjs.org/pkg/-/pkg-1.0.0.tgz".data "sha256-abc".data) := by
  constructor
  · intro ident hash rp
    unfold new_npm_package
    cases to_npm_url ident rp <;> rfl
  · decide

/-- Claim C7: an empty registry override behaves exactly like an absent
one, and both resolve against the default registry. -/
theorem to_npm_url_empty_override (ident : List Char) :
    to_npm_url ident (some []) = to_npm_url ident none ∧
    to_npm_url ident none = npm_url_of_ident DEFAULT_REGISTRY ident :=
  ⟨rfl, rfl⟩

/-- Claim C8: rendering is deterministic, a pure function of the Fetcher
value — equal Fetcher values render to identical text. -/
theorem render_deterministic (f g : Fetcher) (h : f = g) : render f = render g := by
  rw [h]

/-- Witness for C8 on a concrete FetchUrl value. -/
theorem render_deterministic_witness :
    render (Fetcher.FetchUrl "u".data "h".data) =
      render (Fetcher.FetchUrl "u".data "h".data) :=
  render_deterministic (Fetcher.FetchUrl "u".data "h".data)
    (Fetcher.FetchUrl "u".data "h".data) rfl

/-- Claim C9: no non-emptiness is enforced on the parsed name or version:
at-1.0.0 and name-at succeed with the degenerate URLs, and every slash-free
identifier containing an at-sign succeeds. -/
theorem to_npm_url_empty_parts :
    to_npm_url "@1.0.0".data none =
      Except.ok "https://registry.npmjs.org//-/-1.0.0.tgz".data ∧
    to_npm_url "name@".data none =
      Except.ok "https://registry.npmjs.org/name/-/name-.tgz".data ∧
    ∀ ident : List Char, '/' ∉ ident → '@' ∈ ident →
      ∃ url, to_npm_url ident none = Except.ok url := by
  refine ⟨by decide, by decide, ?_⟩
  intro ident h1 h2
  obtain ⟨a, b, hab⟩ := splitOnce_isSome '@' ident h2
  exact ⟨DEFAULT_REGISTRY ++ a ++ "/-/".data ++ a ++ "-".data ++ b ++ ".tgz".data, by
    simp [to_npm_url, npm_url_of_ident, baseUrl, splitOnce_eq_none '/' ident h1, hab]⟩

/-- Witness for C9 on the slash-free identifier x-at-y. -/
theorem to_npm_url_empty_parts_witness :
    ∃ url, to_npm_url "x@y".data none = Except.ok url :=
  to_npm_url_empty_parts.2.2 "x@y".data (by decide) (by decide)

/-- Claim C10 counterexample: for user a/b (which contains a slash), name c
and version 1, the code splits at the first slash and derives name b/c, so
a/b/c@1 does not resolve to the claimed URL. -/
theorem to_npm_url_slash_cex :
    to_npm_url "a/b/c@1".data none =
      Except.ok "https://registry.npmjs.org/a/b/c/-/b/c-1.tgz".data ∧
    to_npm_url "a/b/c@1".data none ≠
      Except.ok "https://registry.npmjs.org/a/b/c/-/c-1.tgz".data := by
  constructor <;> decide

/-- Claim C10 (amended: the user segment must itself be free of the slash):
a slash makes the identifier scoped, and the part before the first slash is
copied into the URL verbatim with no validation. -/
theorem to_npm_url_slash_scoped (user name ver : List Char)
    (hu : '/' ∉ user) (_hn1 : '/' ∉ name) (hn2 : '@' ∉ name) :
    to_npm_url (user ++ '/' :: (name ++ '@' :: ver)) none =
      Except.ok ("https://registry.npmjs.org/".data ++ user ++ "/".data ++ name ++
        "/-/".data ++ name ++ "-".data ++ ver ++ ".tgz".data) := by
  have hmain := npm_url_of_ident_scoped DEFAULT_REGISTRY user name ver hu hn2
  simpa [to_npm_url, baseUrl, DEFAULT_REGISTRY] using hmain

/-- Witness for the amended C10 at user foo, name bar, version 1.0. -/
theorem to_npm_url_slash_scoped_witness :
    to_npm_url "foo/bar@1.0".data none =
      Except.ok "https://registry.npmjs.org/foo/bar/-/bar-1.0.tgz".data :=
  to_npm_url_slash_scoped "foo".data "bar".data "1.0".data
    (by decide) (by decide) (by decide)

end Bun2nix
